import Mathlib

/-!
Verification of the boxed 64-bit integer subsystem (`src/core/inttypes.c`):
the conversion layer (`janet_unwrap_s64` / `janet_unwrap_u64`), the
arithmetic kernel's division/remainder/mod entry points, the hash function,
and the marshal codec, as a shallow embedding.

Modelling conventions:
* Machine integers are modelled as `Int` / `Nat`.  An 8-byte payload is a
  `Nat` below `2 ^ 64` (the little-endian value of the raw bytes);
  `asS64` / `toBits64` move between the two's-complement reading and the
  raw bits.  Reduction modulo `2 ^ 64` is applied exactly where the C code
  stores into a 64-bit cell.
* A C expression whose evaluation is undefined behaviour — division or
  remainder by zero, and `INT64_MIN / -1` or `INT64_MIN % -1` when no
  guard precedes it — is modelled by the distinguished outcome
  `Err.undefinedBehavior`.
* Host doubles are modelled as rationals.  Every finite double is a
  rational number, and the only operations the code applies to a double
  (absolute value, order comparison against `2 ^ 53`, truncation toward
  zero) are exact on the rationals, so every statement quantified over
  doubles is faithfully quantified over `ℚ`.
* `janet_panic` aborts the current operation; operations therefore return
  `Except Err _`.
-/

namespace JanetInt

/-- `INT64_MIN` from the C headers. -/
def INT64_MIN : Int := -(2 ^ 63)

/-- Reading the 8 payload bytes as a two's-complement `int64_t`. -/
def asS64 (p : Nat) : Int :=
  if p < 2 ^ 63 then (p : Int) else (p : Int) - 2 ^ 64

/-- Storing an `int64_t` value into an 8-byte cell: its two's-complement
bit pattern. -/
def toBits64 (x : Int) : Nat := (x % 2 ^ 64).toNat

/-- The errors signalled by this subsystem (`janet_panic` messages, the
host's stream error), plus `undefinedBehavior` for C expressions whose
evaluation is undefined. -/
inductive Err where
  | divideByZero
  | arithmeticOverflow
  | initializationError
  | arityError
  | streamTruncated
  | undefinedBehavior
  deriving DecidableEq, Repr

/-- Which of the two type-descriptor singletons tags a boxed integer. -/
inductive ITag where
  | s64
  | u64
  deriving DecidableEq, Repr

/-- A boxed integer: the descriptor tag plus the 8-byte payload. -/
structure Boxed where
  tag : ITag
  payload : Nat
  deriving DecidableEq, Repr

/-- The Janet values this subsystem inspects.  `janet_scan_int64` and
`janet_scan_uint64` are host functions not under `src/`, so a string
operand is represented by the outcome of those two scans.  `other`
stands for every other Janet type (including abstract values of foreign
descriptors), all of which fall through to the panic branch of the
unwrap functions. -/
inductive JValue where
  | number (d : ℚ)
  | string (s64res : Option Int) (u64res : Option Nat)
  | boxed (b : Boxed)
  | other

/-- `MAX_INT_IN_DBL` = `2 ^ 53`, the largest magnitude up to which every
integer is exactly representable in a double. -/
def MAX_INT_IN_DBL : ℚ := 9007199254740992

/-- The C cast of a double to a 64-bit integer: truncation toward zero
(`Int.tdiv` of the numerator by the denominator is exactly that). -/
def truncQ (q : ℚ) : Int := q.num.tdiv (q.den : Int)

/-- `janet_unwrap_s64`: convert an arbitrary value to an `int64_t`, or
panic `"bad s64 initializer"` (the spec's `InitializationError`).  A boxed
integer of either tag has its payload reinterpreted bit-for-bit. -/
def janet_unwrap_s64 : JValue → Except Err Int
  | .number d =>
    if |d| ≤ MAX_INT_IN_DBL then .ok (truncQ d)
    else .error .initializationError
  | .string s64res _ =>
    match s64res with
    | some v => .ok v
    | none => .error .initializationError
  | .boxed b => .ok (asS64 b.payload)
  | .other => .error .initializationError

/-- `janet_unwrap_u64`: convert an arbitrary value to a `uint64_t`, or
panic `"bad u64 initializer"`.  A number is accepted only when
`0 ≤ d ∧ d ≤ MAX_INT_IN_DBL`; a boxed integer of either tag has its
payload taken bit-for-bit. -/
def janet_unwrap_u64 : JValue → Except Err Nat
  | .number d =>
    if 0 ≤ d ∧ d ≤ MAX_INT_IN_DBL then .ok (truncQ d).toNat
    else .error .initializationError
  | .string _ u64res =>
    match u64res with
    | some v => .ok v
    | none => .error .initializationError
  | .boxed b => .ok b.payload
  | .other => .error .initializationError

/-- `janet_wrap_s64`: allocate a boxed `s64` cell holding `x`'s bits. -/
def janet_wrap_s64 (x : Int) : Boxed := ⟨.s64, toBits64 x⟩

/-- `janet_wrap_u64`: allocate a boxed `u64` cell holding `x`'s bits. -/
def janet_wrap_u64 (x : Nat) : Boxed := ⟨.u64, x % 2 ^ 64⟩

/-- A boxed signed integer as a Janet value. -/
def mkS (x : Int) : JValue := .boxed (janet_wrap_s64 x)

/-- A boxed unsigned integer as a Janet value. -/
def mkU (x : Nat) : JValue := .boxed (janet_wrap_u64 x)

/-- `cfun_it_s64_new` (the `int/s64` constructor): exactly one argument,
routed through the conversion layer and boxed. -/
def cfun_it_s64_new (argv : List JValue) : Except Err Boxed :=
  match argv with
  | [x] =>
    match janet_unwrap_s64 x with
    | .ok v => .ok (janet_wrap_s64 v)
    | .error e => .error e
  | _ => .error .arityError

/-- `cfun_it_u64_new` (the `int/u64` constructor). -/
def cfun_it_u64_new (argv : List JValue) : Except Err Boxed :=
  match argv with
  | [x] =>
    match janet_unwrap_u64 x with
    | .ok v => .ok (janet_wrap_u64 v)
    | .error e => .error e
  | _ => .error .arityError

/-- The loop of `DIVMETHOD_SIGNED(int64_t, s64, div, /)`: per operand,
unwrap, reject zero, reject `INT64_MIN / -1`, then divide (C `/` on
`int64_t` truncates toward zero; after the two guards it cannot
overflow). -/
def s64_divLoop (box : Int) : List JValue → Except Err Int
  | [] => .ok box
  | a :: rest =>
    match janet_unwrap_s64 a with
    | .error e => .error e
    | .ok value =>
      if value = 0 then .error .divideByZero
      else if value = -1 ∧ box = INT64_MIN then .error .arithmeticOverflow
      else s64_divLoop (Int.tdiv box value) rest

/-- The loop of `DIVMETHOD_SIGNED(int64_t, s64, rem, %)` — same guards,
C `%` (truncating remainder, sign follows the dividend). -/
def s64_remLoop (box : Int) : List JValue → Except Err Int
  | [] => .ok box
  | a :: rest =>
    match janet_unwrap_s64 a with
    | .error e => .error e
    | .ok value =>
      if value = 0 then .error .divideByZero
      else if value = -1 ∧ box = INT64_MIN then .error .arithmeticOverflow
      else s64_remLoop (Int.tmod box value) rest

/-- The loop of `cfun_it_s64_mod`: unwrap, reject zero, then compute
`x = box % value` and, when `x < 0`, adjust by `x - box` (if `box < 0`)
or `x + box`.  The source has no `INT64_MIN % -1` guard here; that C
expression's quotient overflows, which is undefined behaviour, modelled
as `Err.undefinedBehavior`.  (After the guards the adjusted value stays
within the `int64_t` range, so the store back into the cell is exact.) -/
def s64_modLoop (box : Int) : List JValue → Except Err Int
  | [] => .ok box
  | a :: rest =>
    match janet_unwrap_s64 a with
    | .error e => .error e
    | .ok value =>
      if value = 0 then .error .divideByZero
      else if box = INT64_MIN ∧ value = -1 then .error .undefinedBehavior
      else
        let x := Int.tmod box value
        s64_modLoop (if x < 0 then (if box < 0 then x - box else x + box) else x) rest

/-- The loop of `DIVMETHOD(uint64_t, u64, div, /)`: unwrap, reject zero,
divide (C unsigned division). -/
def u64_divLoop (box : Nat) : List JValue → Except Err Nat
  | [] => .ok box
  | a :: rest =>
    match janet_unwrap_u64 a with
    | .error e => .error e
    | .ok value =>
      if value = 0 then .error .divideByZero
      else u64_divLoop (box / value) rest

/-- The loop of `DIVMETHOD(uint64_t, u64, mod, %)`. -/
def u64_modLoop (box : Nat) : List JValue → Except Err Nat
  | [] => .ok box
  | a :: rest =>
    match janet_unwrap_u64 a with
    | .error e => .error e
    | .ok value =>
      if value = 0 then .error .divideByZero
      else u64_modLoop (box % value) rest

/-- `cfun_it_s64_div` (`DIVMETHOD_SIGNED(int64_t, s64, div, /)`):
arity 2..N, seed the cell from operand 0, fold the loop left to right. -/
def cfun_it_s64_div (argv : List JValue) : Except Err Boxed :=
  match argv with
  | a0 :: a1 :: rest =>
    match janet_unwrap_s64 a0 with
    | .error e => .error e
    | .ok b0 =>
      match s64_divLoop b0 (a1 :: rest) with
      | .error e => .error e
      | .ok r => .ok (janet_wrap_s64 r)
  | _ => .error .arityError

/-- `cfun_it_s64_rem` (`DIVMETHOD_SIGNED(int64_t, s64, rem, %)`). -/
def cfun_it_s64_rem (argv : List JValue) : Except Err Boxed :=
  match argv with
  | a0 :: a1 :: rest =>
    match janet_unwrap_s64 a0 with
    | .error e => .error e
    | .ok b0 =>
      match s64_remLoop b0 (a1 :: rest) with
      | .error e => .error e
      | .ok r => .ok (janet_wrap_s64 r)
  | _ => .error .arityError

/-- `cfun_it_s64_mod` (the forward n-ary `mod` entry). -/
def cfun_it_s64_mod (argv : List JValue) : Except Err Boxed :=
  match argv with
  | a0 :: a1 :: rest =>
    match janet_unwrap_s64 a0 with
    | .error e => .error e
    | .ok b0 =>
      match s64_modLoop b0 (a1 :: rest) with
      | .error e => .error e
      | .ok r => .ok (janet_wrap_s64 r)
  | _ => .error .arityError

/-- `cfun_it_s64_divi` (`DIVMETHODINVERT_SIGNED(int64_t, s64, divi, /)`,
the `r/` entry): fixed arity 2, cell seeded from `argv[1]`, divisor is
`argv[0]`, with both guards. -/
def cfun_it_s64_divi (argv : List JValue) : Except Err Boxed :=
  match argv with
  | [a0, a1] =>
    match janet_unwrap_s64 a1 with
    | .error e => .error e
    | .ok box =>
      match janet_unwrap_s64 a0 with
      | .error e => .error e
      | .ok value =>
        if value = 0 then .error .divideByZero
        else if value = -1 ∧ box = INT64_MIN then .error .arithmeticOverflow
        else .ok (janet_wrap_s64 (Int.tdiv box value))
  | _ => .error .arityError

/-- `cfun_it_s64_remi` (`DIVMETHODINVERT_SIGNED(int64_t, s64, remi, %)`,
the `r%` entry). -/
def cfun_it_s64_remi (argv : List JValue) : Except Err Boxed :=
  match argv with
  | [a0, a1] =>
    match janet_unwrap_s64 a1 with
    | .error e => .error e
    | .ok box =>
      match janet_unwrap_s64 a0 with
      | .error e => .error e
      | .ok value =>
        if value = 0 then .error .divideByZero
        else if value = -1 ∧ box = INT64_MIN then .error .arithmeticOverflow
        else .ok (janet_wrap_s64 (Int.tmod box value))
  | _ => .error .arityError

/-- `cfun_it_s64_modi` (the `rmod` table entry): fixed arity 2, computes
`op1 % op2` for `op1 = argv[0]`, `op2 = argv[1]` and applies the same
sign adjustment as `cfun_it_s64_mod`.  Unlike `DIVMETHODINVERT_SIGNED`,
the source performs no zero check and no `INT64_MIN` check before the
`%`; `op1 % 0` and `INT64_MIN % -1` are undefined behaviour in C,
modelled as `Err.undefinedBehavior`. -/
def cfun_it_s64_modi (argv : List JValue) : Except Err Boxed :=
  match argv with
  | [a0, a1] =>
    match janet_unwrap_s64 a0 with
    | .error e => .error e
    | .ok op1 =>
      match janet_unwrap_s64 a1 with
      | .error e => .error e
      | .ok op2 =>
        if op2 = 0 ∨ (op1 = INT64_MIN ∧ op2 = -1) then .error .undefinedBehavior
        else
          let x := Int.tmod op1 op2
          .ok (janet_wrap_s64 (if x < 0 then (if op1 < 0 then x - op1 else x + op1) else x))
  | _ => .error .arityError

/-- `cfun_it_u64_div` (`DIVMETHOD(uint64_t, u64, div, /)`). -/
def cfun_it_u64_div (argv : List JValue) : Except Err Boxed :=
  match argv with
  | a0 :: a1 :: rest =>
    match janet_unwrap_u64 a0 with
    | .error e => .error e
    | .ok b0 =>
      match u64_divLoop b0 (a1 :: rest) with
      | .error e => .error e
      | .ok r => .ok (janet_wrap_u64 r)
  | _ => .error .arityError

/-- `cfun_it_u64_mod` (`DIVMETHOD(uint64_t, u64, mod, %)`). -/
def cfun_it_u64_mod (argv : List JValue) : Except Err Boxed :=
  match argv with
  | a0 :: a1 :: rest =>
    match janet_unwrap_u64 a0 with
    | .error e => .error e
    | .ok b0 =>
      match u64_modLoop b0 (a1 :: rest) with
      | .error e => .error e
      | .ok r => .ok (janet_wrap_u64 r)
  | _ => .error .arityError

/-- `COMPMETHOD(uint64_t, u64, lt, <)`: fixed arity 2, both operands go
through this type's own conversion (`janet_unwrap_u64`), result is the
native unsigned comparison. -/
def cfun_it_u64_lt (argv : List JValue) : Except Err Bool :=
  match argv with
  | [a0, a1] =>
    match janet_unwrap_u64 a0 with
    | .error e => .error e
    | .ok v1 =>
      match janet_unwrap_u64 a1 with
      | .error e => .error e
      | .ok v2 => .ok (decide (v1 < v2))
  | _ => .error .arityError

/-- `janet_int64_hash`: read the 8-byte cell as two 32-bit words and XOR
them; the `size` argument is ignored by the source. -/
def janet_int64_hash (p : Nat) (_size : Nat) : Nat :=
  Nat.xor (p % 2 ^ 32) (p / 2 ^ 32 % 2 ^ 32)

/-- Little-endian byte list (length `n`) of a natural number. -/
def natToBytes : Nat → Nat → List Nat
  | 0, _ => []
  | n + 1, p => p % 256 :: natToBytes n (p / 256)

/-- Value of a little-endian byte list. -/
def bytesToNat : List Nat → Nat
  | [] => 0
  | b :: rest => b + 256 * bytesToNat rest

/-- Modelled from the spec: `janet_marshal_int64` is a host function not
under `src/`; per §4.5 it writes exactly 8 raw bytes of payload in the
host's native byte order (little-endian here). -/
def janet_marshal_int64 (p : Nat) : List Nat := natToBytes 8 p

/-- Modelled from the spec: `janet_unmarshal_int64` is a host function
not under `src/`; per §4.5 it reads exactly 8 bytes, failing with
`StreamTruncated` when fewer remain, and returns the rest of the
stream. -/
def janet_unmarshal_int64 (s : List Nat) : Except Err (Nat × List Nat) :=
  if s.length < 8 then .error .streamTruncated
  else .ok (bytesToNat (s.take 8), s.drop 8)

/-- `int64_marshal`: the abstract envelope written by
`janet_marshal_abstract` is host-owned and elided; the codec contributes
the 8 payload bytes. -/
def int64_marshal (p : Nat) : List Nat := janet_marshal_int64 p

/-- `int64_unmarshal`: allocate a fresh 8-byte cell tagged by whichever
descriptor's routine the host invoked, and fill it from the stream. -/
def int64_unmarshal (tag : ITag) (s : List Nat) : Except Err (Boxed × List Nat) :=
  match janet_unmarshal_int64 s with
  | .error e => .error e
  | .ok (p, rest) => .ok (⟨tag, p⟩, rest)

/-- The fields of a `JanetAbstractType` descriptor that the verified
properties touch. -/
structure JanetAbstractType where
  name : String
  marshal : Nat → List Nat
  unmarshal : List Nat → Except Err (Boxed × List Nat)
  hash : Nat → Nat → Nat

/-- The `core/s64` descriptor singleton. -/
def janet_s64_type : JanetAbstractType :=
  ⟨"core/s64", int64_marshal, int64_unmarshal .s64, janet_int64_hash⟩

/-- The `core/u64` descriptor singleton. -/
def janet_u64_type : JanetAbstractType :=
  ⟨"core/u64", int64_marshal, int64_unmarshal .u64, janet_int64_hash⟩

instance {ε α : Type} [DecidableEq ε] [DecidableEq α] : DecidableEq (Except ε α) := fun a b =>
  match a, b with
  | .error e, .error f =>
    if h : e = f then isTrue (congrArg Except.error h)
    else isFalse (fun c => h (Except.error.inj c))
  | .ok x, .ok y =>
    if h : x = y then isTrue (congrArg Except.ok h)
    else isFalse (fun c => h (Except.ok.inj c))
  | .error _, .ok _ => isFalse (fun c => Except.noConfusion c)
  | .ok _, .error _ => isFalse (fun c => Except.noConfusion c)

theorem asS64_toBits64 (x : Int) (h1 : -(2 ^ 63) ≤ x) (h2 : x < 2 ^ 63) :
    asS64 (toBits64 x) = x := by
  have hnn : 0 ≤ x % 2 ^ 64 := Int.emod_nonneg x (by norm_num)
  have hlt : x % 2 ^ 64 < 2 ^ 64 := Int.emod_lt_of_pos x (by norm_num)
  have hc : ((x % 2 ^ 64).toNat : Int) = x % 2 ^ 64 := Int.toNat_of_nonneg hnn
  have hm : x % 2 ^ 64 = x ∨ x % 2 ^ 64 = x + 2 ^ 64 := by omega
  unfold asS64 toBits64
  split_ifs with h <;> omega

theorem janet_unwrap_s64_mkS (x : Int) (h1 : -(2 ^ 63) ≤ x) (h2 : x < 2 ^ 63) :
    janet_unwrap_s64 (mkS x) = .ok x := by
  simp [janet_unwrap_s64, mkS, janet_wrap_s64, asS64_toBits64 x h1 h2]

theorem janet_unwrap_u64_mkU (x : Nat) (h : x < 2 ^ 64) :
    janet_unwrap_u64 (mkU x) = .ok x := by
  simp only [janet_unwrap_u64, mkU, janet_wrap_u64]
  congr 1
  omega

theorem truncQ_of_nonneg (q : ℚ) (h : 0 ≤ q) : truncQ q = ⌊q⌋ := by
  unfold truncQ
  rw [Rat.floor_def]
  exact Int.tdiv_eq_ediv (Rat.num_nonneg.mpr h) (Int.natCast_nonneg _)

theorem truncQ_of_nonpos (q : ℚ) (h : q ≤ 0) : truncQ q = ⌈q⌉ := by
  have h2 : 0 ≤ -q := by linarith
  have hneg : truncQ (-q) = ⌊-q⌋ := truncQ_of_nonneg _ h2
  unfold truncQ at hneg ⊢
  rw [Rat.num_neg_eq_neg_num, Rat.den_neg_eq_den, Int.neg_tdiv, Int.floor_neg] at hneg
  omega

theorem natToBytes_length (n p : Nat) : (natToBytes n p).length = n := by
  induction n generalizing p with
  | zero => rfl
  | succ n ih => simp [natToBytes, ih]

theorem bytesToNat_natToBytes (n p : Nat) :
    bytesToNat (natToBytes n p) = p % 256 ^ n := by
  induction n generalizing p with
  | zero => simp [natToBytes, bytesToNat, Nat.mod_one]
  | succ n ih =>
    rw [natToBytes, bytesToNat, ih, pow_succ, Nat.mul_comm (256 ^ n) 256, Nat.mod_mul]

theorem s64_divLoop_zero_mem (box : Int) (l : List Int)
    (hl : ∀ v ∈ l, -(2 ^ 63) ≤ v ∧ v < 2 ^ 63) (h0 : 0 ∈ l) :
    ∃ e, s64_divLoop box (l.map mkS) = .error e ∧
      (e = Err.divideByZero ∨ e = Err.arithmeticOverflow) := by
  induction l generalizing box with
  | nil => cases h0
  | cons v rest ih =>
    have hv := hl v (List.mem_cons_self v rest)
    have hrest : ∀ w ∈ rest, -(2 ^ 63) ≤ w ∧ w < 2 ^ 63 :=
      fun w hw => hl w (List.mem_cons_of_mem v hw)
    rw [List.map_cons, s64_divLoop, janet_unwrap_s64_mkS v hv.1 hv.2]
    by_cases hz : v = 0
    · simp [hz]
    · rcases List.mem_cons.mp h0 with h0 | h0
      · exact absurd h0.symm hz
      · by_cases hg : v = -1 ∧ box = INT64_MIN
        · simp [hz, hg]
        · simpa [hz, hg] using ih (Int.tdiv box v) hrest h0

theorem s64_remLoop_zero_mem (box : Int) (l : List Int)
    (hl : ∀ v ∈ l, -(2 ^ 63) ≤ v ∧ v < 2 ^ 63) (h0 : 0 ∈ l) :
    ∃ e, s64_remLoop box (l.map mkS) = .error e ∧
      (e = Err.divideByZero ∨ e = Err.arithmeticOverflow) := by
  induction l generalizing box with
  | nil => cases h0
  | cons v rest ih =>
    have hv := hl v (List.mem_cons_self v rest)
    have hrest : ∀ w ∈ rest, -(2 ^ 63) ≤ w ∧ w < 2 ^ 63 :=
      fun w hw => hl w (List.mem_cons_of_mem v hw)
    rw [List.map_cons, s64_remLoop, janet_unwrap_s64_mkS v hv.1 hv.2]
    by_cases hz : v = 0
    · simp [hz]
    · rcases List.mem_cons.mp h0 with h0 | h0
      · exact absurd h0.symm hz
      · by_cases hg : v = -1 ∧ box = INT64_MIN
        · simp [hz, hg]
        · simpa [hz, hg] using ih (Int.tmod box v) hrest h0

theorem u64_divLoop_zero_mem (box : Nat) (l : List Nat)
    (hl : ∀ v ∈ l, v < 2 ^ 64) (h0 : 0 ∈ l) :
    u64_divLoop box (l.map mkU) = .error Err.divideByZero := by
  induction l generalizing box with
  | nil => cases h0
  | cons v rest ih =>
    have hv := hl v (List.mem_cons_self v rest)
    have hrest : ∀ w ∈ rest, w < 2 ^ 64 := fun w hw => hl w (List.mem_cons_of_mem v hw)
    rw [List.map_cons, u64_divLoop, janet_unwrap_u64_mkU v hv]
    by_cases hz : v = 0
    · simp [hz]
    · rcases List.mem_cons.mp h0 with h0 | h0
      · exact absurd h0.symm hz
      · simpa [hz] using ih (box / v) hrest h0

theorem u64_modLoop_zero_mem (box : Nat) (l : List Nat)
    (hl : ∀ v ∈ l, v < 2 ^ 64) (h0 : 0 ∈ l) :
    u64_modLoop box (l.map mkU) = .error Err.divideByZero := by
  induction l generalizing box with
  | nil => cases h0
  | cons v rest ih =>
    have hv := hl v (List.mem_cons_self v rest)
    have hrest : ∀ w ∈ rest, w < 2 ^ 64 := fun w hw => hl w (List.mem_cons_of_mem v hw)
    rw [List.map_cons, u64_modLoop, janet_unwrap_u64_mkU v hv]
    by_cases hz : v = 0
    · simp [hz]
    · rcases List.mem_cons.mp h0 with h0 | h0
      · exact absurd h0.symm hz
      · simpa [hz] using ih (box % v) hrest h0

/-- C1 (counterexample): the spec's second literal case is false on the
code: `mod(7, -3)` evaluates to `1`, not `8` — the native remainder
`7 % -3 = 1` is nonnegative, so the adjustment branch is never taken. -/
theorem C1_counterexample :
    cfun_it_s64_mod [mkS 7, mkS (-3)] ≠ .ok (janet_wrap_s64 8) := by
  decide

/-- C1 (amended): the literal cases of the signed `mod` as the code
computes them: `mod(-7, 3) = 6` (remainder `-1 < 0` and accumulator
`-7 < 0`, so `-1 - (-7) = 6`), and `mod(7, -3) = 1` (remainder `1 ≥ 0`,
no adjustment). -/
theorem C1_mod_literal_cases :
    cfun_it_s64_mod [mkS (-7), mkS 3] = .ok (janet_wrap_s64 6) ∧
    cfun_it_s64_mod [mkS 7, mkS (-3)] = .ok (janet_wrap_s64 1) := by
  decide

/-- C2: the forward n-ary `mod` rejects a zero divisor with
`DivideByZero`, but the reverse entry `cfun_it_s64_modi` (`rmod`)
performs no zero check at all: with divisor `0` it evaluates `7 % 0`,
which is undefined behaviour in C (a crash on real hardware), and with
the operands the other way round it happily returns `0 % 7 = 0`.  In no
case does `rmod` signal `DivideByZero`. -/
theorem C2_rmod_missing_zero_check :
    cfun_it_s64_mod [mkS 7, mkS 0] = .error Err.divideByZero ∧
    cfun_it_s64_modi [mkS 7, mkS 0] = .error Err.undefinedBehavior ∧
    cfun_it_s64_modi [mkS 0, mkS 7] = .ok (janet_wrap_s64 0) := by
  decide

/-- C3 (counterexample): at accumulator `INT64_MIN` and divisor `-1` the
claim fails: the adjustment formula would yield `0` (the native
remainder is `0`, not negative), but the code's `*box % value` is
`INT64_MIN % -1`, whose quotient overflows — undefined behaviour, not
the formula's value. -/
theorem C3_counterexample :
    cfun_it_s64_mod [mkS INT64_MIN, mkS (-1)] = .error Err.undefinedBehavior ∧
    (if Int.tmod INT64_MIN (-1) < 0 then
        (if INT64_MIN < 0 then Int.tmod INT64_MIN (-1) - INT64_MIN
         else Int.tmod INT64_MIN (-1) + INT64_MIN)
      else Int.tmod INT64_MIN (-1)) = 0 := by
  constructor
  · decide
  · decide

/-- C3 (amended): for every accumulator `a` and nonzero divisor `v`
except the single pair `(INT64_MIN, -1)` — where the native `%` itself
is undefined — each fold step of the signed `mod` (and the `rmod`
entry) returns exactly `r = a tmod v` adjusted, when `r < 0`, to
`r - a` if `a < 0` and to `r + a` otherwise: the dividend-sign formula,
not a conventional floor-mod. -/
theorem C3_mod_formula (a v : Int)
    (ha1 : -(2 ^ 63) ≤ a) (ha2 : a < 2 ^ 63) (hv1 : -(2 ^ 63) ≤ v) (hv2 : v < 2 ^ 63)
    (hv : v ≠ 0) (hg : ¬(a = INT64_MIN ∧ v = -1)) :
    cfun_it_s64_mod [mkS a, mkS v] =
      .ok (janet_wrap_s64
        (if Int.tmod a v < 0 then
            (if a < 0 then Int.tmod a v - a else Int.tmod a v + a)
          else Int.tmod a v)) ∧
    cfun_it_s64_modi [mkS a, mkS v] =
      .ok (janet_wrap_s64
        (if Int.tmod a v < 0 then
            (if a < 0 then Int.tmod a v - a else Int.tmod a v + a)
          else Int.tmod a v)) := by
  have ha := janet_unwrap_s64_mkS a ha1 ha2
  have hvv := janet_unwrap_s64_mkS v hv1 hv2
  constructor
  · simp [cfun_it_s64_mod, ha, hvv, s64_modLoop, hv, hg]
  · simp [cfun_it_s64_modi, ha, hvv, hv, hg]

/-- C3 (witness): the amended formula at `a = -7`, `v = 3`. -/
theorem C3_mod_formula_witness :
    cfun_it_s64_mod [mkS (-7), mkS 3] =
      .ok (janet_wrap_s64
        (if Int.tmod (-7) 3 < 0 then
            (if (-7 : Int) < 0 then Int.tmod (-7) 3 - (-7) else Int.tmod (-7) 3 + (-7))
          else Int.tmod (-7) 3)) ∧
    cfun_it_s64_modi [mkS (-7), mkS 3] =
      .ok (janet_wrap_s64
        (if Int.tmod (-7) 3 < 0 then
            (if (-7 : Int) < 0 then Int.tmod (-7) 3 - (-7) else Int.tmod (-7) 3 + (-7))
          else Int.tmod (-7) 3)) :=
  C3_mod_formula (-7) 3 (by norm_num) (by norm_num) (by norm_num) (by norm_num)
    (by norm_num) (by decide)

/-- C4: the signed division family fails with `ArithmeticOverflow`
exactly when the accumulator is `INT64_MIN` and the divisor is `-1`,
for the forward `/` and `%` entries and for the reverse `r/` and `r%`
entries (where the divisor is `argv[0]`); for every other accumulator
`x`, dividing by `-1` succeeds with `-x` and remaindering succeeds
with `0`. -/
theorem C4_overflow_guard (x : Int) (h1 : -(2 ^ 63) ≤ x) (h2 : x < 2 ^ 63) :
    (cfun_it_s64_div [mkS x, mkS (-1)] = .error Err.arithmeticOverflow ↔ x = INT64_MIN) ∧
    (cfun_it_s64_rem [mkS x, mkS (-1)] = .error Err.arithmeticOverflow ↔ x = INT64_MIN) ∧
    (cfun_it_s64_divi [mkS (-1), mkS x] = .error Err.arithmeticOverflow ↔ x = INT64_MIN) ∧
    (cfun_it_s64_remi [mkS (-1), mkS x] = .error Err.arithmeticOverflow ↔ x = INT64_MIN) ∧
    (x ≠ INT64_MIN →
      cfun_it_s64_div [mkS x, mkS (-1)] = .ok (janet_wrap_s64 (-x)) ∧
      cfun_it_s64_rem [mkS x, mkS (-1)] = .ok (janet_wrap_s64 0) ∧
      cfun_it_s64_divi [mkS (-1), mkS x] = .ok (janet_wrap_s64 (-x)) ∧
      cfun_it_s64_remi [mkS (-1), mkS x] = .ok (janet_wrap_s64 0)) := by
  have hm1 : janet_unwrap_s64 (mkS (-1)) = .ok (-1) :=
    janet_unwrap_s64_mkS (-1) (by norm_num) (by norm_num)
  have hmx : janet_unwrap_s64 (mkS x) = .ok x := janet_unwrap_s64_mkS x h1 h2
  by_cases hx : x = INT64_MIN
  · subst hx
    refine ⟨?_, ?_, ?_, ?_, fun hc => absurd rfl hc⟩ <;>
      simp [cfun_it_s64_div, cfun_it_s64_rem, cfun_it_s64_divi, cfun_it_s64_remi,
        s64_divLoop, s64_remLoop, hm1, hmx]
  · refine ⟨?_, ?_, ?_, ?_, fun _ => ?_⟩ <;>
      simp [cfun_it_s64_div, cfun_it_s64_rem, cfun_it_s64_divi, cfun_it_s64_remi,
        s64_divLoop, s64_remLoop, hm1, hmx, hx]

/-- C4 (witness): the guard at `x = INT64_MIN` and the success at
`x = 5`. -/
theorem C4_overflow_guard_witness :
    cfun_it_s64_div [mkS INT64_MIN, mkS (-1)] = .error Err.arithmeticOverflow ∧
    cfun_it_s64_div [mkS 5, mkS (-1)] = .ok (janet_wrap_s64 (-5)) := by
  constructor
  · exact ((C4_overflow_guard INT64_MIN (by norm_num [INT64_MIN])
      (by norm_num [INT64_MIN])).1).mpr rfl
  · exact ((C4_overflow_guard 5 (by norm_num) (by norm_num)).2.2.2.2
      (by decide)).1

/-- C5 (counterexample): a zero at position ≥ 1 does not always yield
`DivideByZero`: in `s64.div(INT64_MIN, -1, 0)` the fold hits the
`INT64_MIN / -1` guard at position 1 first and fails with
`ArithmeticOverflow` although a zero appears at position 2. -/
theorem C5_counterexample :
    cfun_it_s64_div [mkS INT64_MIN, mkS (-1), mkS 0] = .error Err.arithmeticOverflow ∧
    cfun_it_s64_div [mkS INT64_MIN, mkS (-1), mkS 0] ≠ .error Err.divideByZero := by
  constructor
  · decide
  · decide

/-- C5 (amended): in every n-ary divide or remainder call whose operands
are boxed integers, a zero converted at any position ≥ 1 makes the
operation fail: the unsigned entries always fail with `DivideByZero`,
and the signed entries fail with `DivideByZero` or — when an earlier
fold step hits the `INT64_MIN / -1` guard — `ArithmeticOverflow`. -/
theorem C5_nary_zero_divisor :
    (∀ (a : Int) (l : List Int),
        -(2 ^ 63) ≤ a → a < 2 ^ 63 → (∀ v ∈ l, -(2 ^ 63) ≤ v ∧ v < 2 ^ 63) → 0 ∈ l →
        (∃ e, cfun_it_s64_div (mkS a :: l.map mkS) = .error e ∧
            (e = Err.divideByZero ∨ e = Err.arithmeticOverflow)) ∧
        (∃ e, cfun_it_s64_rem (mkS a :: l.map mkS) = .error e ∧
            (e = Err.divideByZero ∨ e = Err.arithmeticOverflow))) ∧
    (∀ (a : Nat) (l : List Nat), a < 2 ^ 64 → (∀ v ∈ l, v < 2 ^ 64) → 0 ∈ l →
        cfun_it_u64_div (mkU a :: l.map mkU) = .error Err.divideByZero ∧
        cfun_it_u64_mod (mkU a :: l.map mkU) = .error Err.divideByZero) := by
  constructor
  · intro a l ha1 ha2 hl h0
    have hma : janet_unwrap_s64 (mkS a) = .ok a := janet_unwrap_s64_mkS a ha1 ha2
    cases l with
    | nil => cases h0
    | cons v rest =>
      constructor
      · rcases s64_divLoop_zero_mem a (v :: rest) hl h0 with ⟨e, he, hor⟩
        rw [List.map_cons] at he
        exact ⟨e, by simp only [List.map_cons, cfun_it_s64_div, hma, he], hor⟩
      · rcases s64_remLoop_zero_mem a (v :: rest) hl h0 with ⟨e, he, hor⟩
        rw [List.map_cons] at he
        exact ⟨e, by simp only [List.map_cons, cfun_it_s64_rem, hma, he], hor⟩
  · intro a l ha hl h0
    have hma : janet_unwrap_u64 (mkU a) = .ok a := janet_unwrap_u64_mkU a ha
    cases l with
    | nil => cases h0
    | cons v rest =>
      constructor
      · have he := u64_divLoop_zero_mem a (v :: rest) hl h0
        rw [List.map_cons] at he
        simp only [List.map_cons, cfun_it_u64_div, hma, he]
      · have he := u64_modLoop_zero_mem a (v :: rest) hl h0
        rw [List.map_cons] at he
        simp only [List.map_cons, cfun_it_u64_mod, hma, he]

/-- C5 (witness): the amended statement at `s64.div(10, 0)` and
`u64.div(10, 0)`. -/
theorem C5_nary_zero_divisor_witness :
    (∃ e, cfun_it_s64_div [mkS 10, mkS 0] = .error e ∧
        (e = Err.divideByZero ∨ e = Err.arithmeticOverflow)) ∧
    cfun_it_u64_div [mkU 10, mkU 0] = .error Err.divideByZero := by
  constructor
  · have h := (C5_nary_zero_divisor.1 10 [0] (by norm_num) (by norm_num)
      (by intro v hv; simp at hv; simp [hv]) (by simp)).1
    simpa using h
  · have h := (C5_nary_zero_divisor.2 10 [0] (by norm_num)
      (by intro v hv; simp at hv; simp [hv]) (by simp)).1
    simpa using h

/-- C6: marshalling then unmarshalling a boxed integer reproduces the
8-byte payload bit for bit, through either descriptor — both
descriptors share `int64_marshal` / `int64_unmarshal`, and the tag of
the resulting box is decided by which descriptor's routine ran, not by
the stream. -/
theorem C6_marshal_roundtrip (p : Nat) (h : p < 2 ^ 64) :
    janet_s64_type.unmarshal (janet_s64_type.marshal p) = .ok (⟨ITag.s64, p⟩, []) ∧
    janet_u64_type.unmarshal (janet_u64_type.marshal p) = .ok (⟨ITag.u64, p⟩, []) := by
  have hlen : (natToBytes 8 p).length = 8 := natToBytes_length 8 p
  have hval : bytesToNat (natToBytes 8 p) = p := by
    rw [bytesToNat_natToBytes]
    have h8 : (256 : Nat) ^ 8 = 2 ^ 64 := by norm_num
    rw [h8]
    omega
  have hun : janet_unmarshal_int64 (janet_marshal_int64 p) = .ok (p, []) := by
    unfold janet_unmarshal_int64 janet_marshal_int64
    rw [if_neg (by rw [hlen]; omega), List.take_of_length_le (by rw [hlen]),
      List.drop_of_length_le (by rw [hlen]), hval]
  constructor <;>
    simp [janet_s64_type, janet_u64_type, int64_marshal, int64_unmarshal, hun]

/-- C6 (witness): the round trip at the payload `0x0123456789ABCDEF`. -/
theorem C6_marshal_roundtrip_witness :
    janet_s64_type.unmarshal (janet_s64_type.marshal 81985529216486895) =
      .ok (⟨ITag.s64, 81985529216486895⟩, []) ∧
    janet_u64_type.unmarshal (janet_u64_type.marshal 81985529216486895) =
      .ok (⟨ITag.u64, 81985529216486895⟩, []) :=
  C6_marshal_roundtrip 81985529216486895 (by norm_num)

/-- C7: both conversions take a boxed integer's 8-byte payload
bit-for-bit regardless of its descriptor tag (`janet_unwrap_u64`
returns the raw bits, `janet_unwrap_s64` their two's-complement
reading), and consequently the unsigned comparison
`u64.lt(unsigned(5), signed(-1))` returns `true`: `-1`'s bit pattern
reinterpreted as unsigned is the maximum 64-bit value. -/
theorem C7_bit_reinterpretation (b : Boxed) (h : b.payload < 2 ^ 64) :
    janet_unwrap_u64 (.boxed b) = .ok b.payload ∧
    janet_unwrap_s64 (.boxed b) = .ok (asS64 b.payload) ∧
    toBits64 (asS64 b.payload) = b.payload ∧
    cfun_it_u64_lt [mkU 5, mkS (-1)] = .ok true := by
  refine ⟨rfl, rfl, ?_, by decide⟩
  unfold toBits64 asS64
  split_ifs <;> omega

/-- C7 (witness): the reinterpretation at the signed box holding the
bits of `-1`. -/
theorem C7_bit_reinterpretation_witness :
    janet_unwrap_u64 (.boxed ⟨ITag.s64, 18446744073709551615⟩) = .ok 18446744073709551615 ∧
    janet_unwrap_s64 (.boxed ⟨ITag.s64, 18446744073709551615⟩) =
      .ok (asS64 18446744073709551615) ∧
    toBits64 (asS64 18446744073709551615) = 18446744073709551615 ∧
    cfun_it_u64_lt [mkU 5, mkS (-1)] = .ok true :=
  C7_bit_reinterpretation ⟨ITag.s64, 18446744073709551615⟩ (by norm_num)

/-- C8: the hash of a boxed integer is the XOR of the two 32-bit words
of its 8-byte payload; both descriptors install the same
`janet_int64_hash`, so bit-identical payloads hash equally regardless
of descriptor — in particular the box of signed `-1` and the box of
unsigned `18446744073709551615` hash equally. -/
theorem C8_hash_xor (p : Nat) (h : p < 2 ^ 64) :
    janet_s64_type.hash p 8 = Nat.xor (p % 2 ^ 32) (p / 2 ^ 32) ∧
    janet_u64_type.hash p 8 = Nat.xor (p % 2 ^ 32) (p / 2 ^ 32) ∧
    janet_s64_type.hash (janet_wrap_s64 (-1)).payload 8 =
      janet_u64_type.hash (janet_wrap_u64 18446744073709551615).payload 8 := by
  refine ⟨?_, ?_, by decide⟩ <;>
  · simp only [janet_s64_type, janet_u64_type, janet_int64_hash]
    congr 1
    omega

/-- C8 (witness): the hash formula at the payload `0x1234`. -/
theorem C8_hash_xor_witness :
    janet_s64_type.hash 4660 8 = Nat.xor (4660 % 2 ^ 32) (4660 / 2 ^ 32) ∧
    janet_u64_type.hash 4660 8 = Nat.xor (4660 % 2 ^ 32) (4660 / 2 ^ 32) ∧
    janet_s64_type.hash (janet_wrap_s64 (-1)).payload 8 =
      janet_u64_type.hash (janet_wrap_u64 18446744073709551615).payload 8 :=
  C8_hash_xor 4660 (by norm_num)

/-- C9: converting a double to a signed 64-bit integer succeeds exactly
when its magnitude is at most `2 ^ 53`, in which case the value is
truncated toward zero (`truncQ` equals the floor for nonnegative inputs
and the ceiling for nonpositive ones); the constructor succeeds on the
double `2 ^ 53` itself with that exact integer and fails with the
initialization error on any double of larger magnitude. -/
theorem C9_s64_double_conversion :
    (∀ q : ℚ, |q| ≤ MAX_INT_IN_DBL → janet_unwrap_s64 (.number q) = .ok (truncQ q)) ∧
    (∀ q : ℚ, MAX_INT_IN_DBL < |q| →
        janet_unwrap_s64 (.number q) = .error Err.initializationError) ∧
    (∀ q : ℚ, 0 ≤ q → truncQ q = ⌊q⌋) ∧
    (∀ q : ℚ, q ≤ 0 → truncQ q = ⌈q⌉) ∧
    cfun_it_s64_new [.number ((2 : ℚ) ^ 53)] = .ok (janet_wrap_s64 (2 ^ 53)) ∧
    (∀ q : ℚ, MAX_INT_IN_DBL < |q| →
        cfun_it_s64_new [.number q] = .error Err.initializationError) := by
  refine ⟨?_, ?_, truncQ_of_nonneg, truncQ_of_nonpos, ?_, ?_⟩
  · intro q h
    simp [janet_unwrap_s64, h]
  · intro q h
    simp [janet_unwrap_s64, not_le.mpr h]
  · decide
  · intro q h
    simp [cfun_it_s64_new, janet_unwrap_s64, not_le.mpr h]

/-- C9 (witness): conversion at `7/2` (truncates to `3`), rejection at
`2 ^ 60`, and the truncation characterizations at `±7/2`. -/
theorem C9_s64_double_conversion_witness :
    janet_unwrap_s64 (.number (7 / 2 : ℚ)) = .ok (truncQ (7 / 2 : ℚ)) ∧
    janet_unwrap_s64 (.number ((2 : ℚ) ^ 60)) = .error Err.initializationError ∧
    truncQ (7 / 2 : ℚ) = ⌊(7 / 2 : ℚ)⌋ ∧
    truncQ (-(7 / 2) : ℚ) = ⌈(-(7 / 2) : ℚ)⌉ ∧
    cfun_it_s64_new [.number ((2 : ℚ) ^ 60)] = .error Err.initializationError :=
  ⟨C9_s64_double_conversion.1 _ (by norm_num [MAX_INT_IN_DBL, abs_of_nonneg]),
   C9_s64_double_conversion.2.1 _ (by norm_num [MAX_INT_IN_DBL, abs_of_nonneg]),
   C9_s64_double_conversion.2.2.1 _ (by norm_num),
   C9_s64_double_conversion.2.2.2.1 _ (by norm_num),
   C9_s64_double_conversion.2.2.2.2.2 _ (by norm_num [MAX_INT_IN_DBL, abs_of_nonneg])⟩

/-- C10 (implicit): the unsigned conversion rejects every negative
double — the guard is `0 ≤ d ∧ d ≤ 2 ^ 53`, so any `d < 0` (however
small in magnitude) fails, and hence the `int/u64` constructor fails —
while the signed conversion accepts any double of magnitude at most
`2 ^ 53`. -/
theorem C10_negative_double_unsigned (q : ℚ) (hneg : q < 0) :
    janet_unwrap_u64 (.number q) = .error Err.initializationError ∧
    cfun_it_u64_new [.number q] = .error Err.initializationError ∧
    (-MAX_INT_IN_DBL ≤ q → janet_unwrap_s64 (.number q) = .ok (truncQ q)) := by
  have hno : ¬(0 ≤ q ∧ q ≤ MAX_INT_IN_DBL) := by
    rintro ⟨h0, -⟩
    linarith
  refine ⟨?_, ?_, ?_⟩
  · simp [janet_unwrap_u64, hno]
  · simp [cfun_it_u64_new, janet_unwrap_u64, hno]
  · intro hge
    have habs : |q| ≤ MAX_INT_IN_DBL := by
      rw [abs_of_neg hneg]
      linarith
    simp [janet_unwrap_s64, habs]

/-- C10 (witness): the rejection of `-1.0` by the unsigned conversion
and constructor, and its acceptance by the signed conversion. -/
theorem C10_negative_double_unsigned_witness :
    janet_unwrap_u64 (.number (-1 : ℚ)) = .error Err.initializationError ∧
    cfun_it_u64_new [.number (-1 : ℚ)] = .error Err.initializationError ∧
    janet_unwrap_s64 (.number (-1 : ℚ)) = .ok (truncQ (-1 : ℚ)) := by
  have h := C10_negative_double_unsigned (-1) (by norm_num)
  exact ⟨h.1, h.2.1, h.2.2 (by norm_num [MAX_INT_IN_DBL])⟩

end JanetInt
